import Mathlib

/-!
Shallow embedding of the chipper CHIP-8 virtual machine core
(src/chip8.rs, src/profile.rs) in Lean 4.

Conventions of the embedding:
* Machine integers (u8, u16) are represented by `Nat`; wrapping Rust
  arithmetic (`overflowing_add`, `+=` on u16) is modelled by explicit
  `% 256` / `% 65536`.
* Byte arrays (`memory`, `registers`, `stack`, the RPL `user_registers`
  bank) are total functions `Nat → Nat`; the framebuffer `gfx` and the
  `key` vector are `Nat → Bool`.  Rust's panicking slice/array indexing
  is mirrored by explicit bounds guards that return `none` (a panic
  aborts the run, so no post-panic state is observable).  `BitSlice::get_mut`
  (which silently does nothing when out of range) is mirrored by a
  conditional update.
* Fallible operations (those that can panic) return `Option`; the
  fetch-decode-execute cycle returns `Option (Chip8 × Option Action)`,
  `none` meaning a fatal VM fault (unknown opcode, stack over/underflow,
  out-of-bounds memory access).
-/

namespace Chipper

/-- Target variants of the emulator (`enum Target`). -/
inductive Target
  | chip8
  | superChipLegacy
  | superChip
  | xoChip
deriving DecidableEq, Repr

/-- Host actions the core can request (`enum Action`); only `Quit` exists. -/
inductive Action
  | quit
deriving DecidableEq, Repr

/-- Immutable per-target descriptor (`struct Profile` in src/profile.rs). -/
structure Profile where
  screen_width : Nat
  screen_height : Nat
  lores_display_wait : Bool
  default_screen_scale : Nat
  memory_capacity : Nat
  user_register_count : Nat
deriving DecidableEq, Repr

/-- The profile table from `profile::profiles()`. -/
def profiles : Target → Profile
  | Target.chip8 =>
      { screen_width := 64, screen_height := 32, lores_display_wait := true
        default_screen_scale := 12, memory_capacity := 4096, user_register_count := 0 }
  | Target.superChipLegacy =>
      { screen_width := 128, screen_height := 64, lores_display_wait := true
        default_screen_scale := 6, memory_capacity := 4096, user_register_count := 8 }
  | Target.superChip =>
      { screen_width := 128, screen_height := 64, lores_display_wait := false
        default_screen_scale := 6, memory_capacity := 4096, user_register_count := 8 }
  | Target.xoChip =>
      { screen_width := 128, screen_height := 64, lores_display_wait := false
        default_screen_scale := 6, memory_capacity := 65536, user_register_count := 16 }

/-- Test for the SuperChip family (`matches!(target, SuperChipLegacy | SuperChip)`). -/
def isSC (t : Target) : Bool := t == Target.superChipLegacy || t == Target.superChip

/-- Test for the XO-Chip target (`matches!(target, XoChip)`). -/
def isXO (t : Target) : Bool := t == Target.xoChip

/-- Pointwise update of a `Nat`-valued store. -/
def updf (f : Nat → Nat) (idx v : Nat) : Nat → Nat :=
  fun p => if p = idx then v else f p

/-- Pointwise update of a `Bool`-valued store. -/
def updb (f : Nat → Bool) (idx : Nat) (v : Bool) : Nat → Bool :=
  fun p => if p = idx then v else f p

/-- The virtual machine state (`struct Chip8` in src/chip8.rs). -/
structure Chip8 where
  registers : Nat → Nat
  user_registers : Option (Nat → Nat)
  i : Nat
  pc : Nat
  memory : Nat → Nat
  gfx : Nat → Bool
  profile : Profile
  delay_timer : Nat
  sound_timer : Nat
  stack : Nat → Nat
  sp : Nat
  key : Nat → Bool
  draw : Bool
  hires : Bool
  target : Target
  rng : Nat → Nat
  rngIdx : Nat
  key_wait : Option Bool × Option Nat

/-- The 80-byte builtin font table `CHIP8_FONTSET`. -/
def CHIP8_FONTSET : List Nat :=
  [0xF0, 0x90, 0x90, 0x90, 0xF0,
   0x20, 0x60, 0x20, 0x20, 0x70,
   0xF0, 0x10, 0xF0, 0x80, 0xF0,
   0xF0, 0x10, 0xF0, 0x10, 0xF0,
   0x90, 0x90, 0xF0, 0x10, 0x10,
   0xF0, 0x80, 0xF0, 0x10, 0xF0,
   0xF0, 0x80, 0xF0, 0x90, 0xF0,
   0xF0, 0x10, 0x20, 0x40, 0x40,
   0xF0, 0x90, 0xF0, 0x90, 0xF0,
   0xF0, 0x90, 0xF0, 0x10, 0xF0,
   0xF0, 0x90, 0xF0, 0x90, 0x90,
   0xE0, 0x90, 0xE0, 0x90, 0xE0,
   0xF0, 0x80, 0x80, 0x80, 0xF0,
   0xE0, 0x90, 0x90, 0x90, 0xE0,
   0xF0, 0x80, 0xF0, 0x80, 0xF0,
   0xF0, 0x80, 0xF0, 0x80, 0x80]

/-- Constructor `Chip8::new`: memory zeroed except the fontset at 0..80,
pc at 0x200, user register bank allocated iff the profile declares one. -/
def Chip8.new (target : Target) (rng : Nat → Nat) : Chip8 :=
  let profile := profiles target
  { registers := fun _ => 0
    user_registers :=
      if 0 < profile.user_register_count then some (fun _ => 0) else none
    i := 0
    pc := 0x200
    memory := fun a => if a < 80 then CHIP8_FONTSET.getD a 0 else 0
    gfx := fun _ => false
    profile := profile
    delay_timer := 0
    sound_timer := 0
    stack := fun _ => 0
    sp := 0
    key := fun _ => false
    draw := true
    hires := false
    target := target
    rng := rng
    rngIdx := 0
    key_wait := (none, none) }

/-- `Chip8::load_rom`: copy the ROM bytes in starting at 0x200. -/
def load_rom (st : Chip8) (rom : List Nat) : Chip8 :=
  { st with
    memory := fun a =>
      if 0x200 ≤ a ∧ a < 0x200 + rom.length then rom.getD (a - 0x200) 0
      else st.memory a }

/-- `Chip8::resolution_scale`. -/
def resolution_scale (st : Chip8) : Nat :=
  if st.hires ∨ st.target = Target.chip8 then 1 else 2

/-- `Chip8::audio_sound`. -/
def audio_sound (st : Chip8) : Bool := decide (0 < st.sound_timer)

/-- `Chip8::update_timers` (saturating decrement of both timers). -/
def update_timers (st : Chip8) : Chip8 :=
  { st with delay_timer := st.delay_timer - 1, sound_timer := st.sound_timer - 1 }

/-- `Chip8::set_key`, at the canonical key-number level (the SDL scancode
to key-number map of `key_scan_mapping` covers exactly the values 0x0-0xF;
a scancode outside the map never reaches this logic). -/
def set_key (st : Chip8) (key_num : Nat) (pressed : Bool) : Chip8 :=
  let st1 :=
    match st.key_wait with
    | (some false, some num) =>
        if pressed = false ∧ num = key_num then
          { st with key_wait := (some true, some num) }
        else st
    | (some false, none) =>
        if pressed then { st with key_wait := (some false, some key_num) } else st
    | _ => st
  if key_num < 16 then { st1 with key := updb st1.key key_num pressed } else st1

/-- Helper `Chip8::register_x`: high nibble of the low 12 bits. -/
def register_x (o : Nat) : Nat := (o &&& 0x0F00) >>> 8

/-- Helper `Chip8::register_y`. -/
def register_y (o : Nat) : Nat := (o &&& 0x00F0) >>> 4

/-- Helper `Chip8::opcode_value` (low byte of the opcode). -/
def opcode_value (o : Nat) : Nat := o &&& 0x00FF

/-- 00EE: return from a subroutine; `checked_sub` panic on empty stack and
the `stack[sp]` indexing panic are both `none`. -/
def c8_flow_return (st : Chip8) : Option Chip8 :=
  if st.sp = 0 then none
  else
    let sp1 := st.sp - 1
    if sp1 < 16 then some { st with sp := sp1, pc := (st.stack sp1 + 2) % 65536 }
    else none

/-- 1NNN: goto. -/
def c8_flow_goto (st : Chip8) (o : Nat) : Chip8 :=
  { st with pc := o &&& 0x0FFF }

/-- 2NNN: call subroutine; the `stack[sp]` indexing panic and the
`assert!(sp < STACK_SIZE)` after the increment are both `none`. -/
def c8_flow_gosub (st : Chip8) (o : Nat) : Option Chip8 :=
  if st.sp < 16 then
    let st1 := { st with stack := updf st.stack st.sp st.pc, sp := st.sp + 1 }
    if st1.sp < 16 then some { st1 with pc := o &&& 0x0FFF } else none
  else none

/-- BNNN / BXNN: jump with offset; offset register is V0 on CHIP-8/XO-Chip,
VX on the SuperChip family. -/
def c8_flow_jump (st : Chip8) (o : Nat) : Chip8 :=
  { st with
    pc := ((o &&& 0x0FFF) +
      (match st.target with
       | Target.chip8 | Target.xoChip => st.registers 0
       | Target.superChipLegacy | Target.superChip => st.registers (register_x o))) % 65536 }

/-- 00E0: clear the screen (function-level rendering of `gfx.fill(false)`
over the whole `screen_width * screen_height` buffer). -/
def c8_display_clear (st : Chip8) : Chip8 × Nat :=
  let len := st.profile.screen_width * st.profile.screen_height
  ({ st with gfx := fun p => if p < len then false else st.gfx p, draw := true }, 2)

/-- 3XNN: skip if VX equals NN. -/
def c8_cond_skip_eq_num (st : Chip8) (o : Nat) : Chip8 × Nat :=
  (st, if st.registers (register_x o) = opcode_value o then 4 else 2)

/-- 4XNN: skip if VX does not equal NN. -/
def c8_cond_skip_neq_num (st : Chip8) (o : Nat) : Chip8 × Nat :=
  (st, if st.registers (register_x o) = opcode_value o then 2 else 4)

/-- 5XY0: skip if VX equals VY. -/
def c8_cond_skip_eq_reg (st : Chip8) (o : Nat) : Chip8 × Nat :=
  (st, if st.registers (register_x o) = st.registers (register_y o) then 4 else 2)

/-- 6XNN: store NN in VX. -/
def c8_const_set_num (st : Chip8) (o : Nat) : Chip8 × Nat :=
  ({ st with registers := updf st.registers (register_x o) (opcode_value o) }, 2)

/-- 7XNN: add NN to VX, wrapping, carry flag untouched. -/
def c8_const_add_num (st : Chip8) (o : Nat) : Chip8 × Nat :=
  let reg := register_x o
  ({ st with registers := updf st.registers reg ((st.registers reg + opcode_value o) % 256) }, 2)

/-- 8XY0: VX := VY. -/
def c8_assign_set_reg (st : Chip8) (o : Nat) : Chip8 × Nat :=
  ({ st with registers := updf st.registers (register_x o) (st.registers (register_y o)) }, 2)

/-- 8XY1: VX := VX | VY; on the original CHIP-8 only, VF is reset to 0. -/
def c8_bitop_or_reg (st : Chip8) (o : Nat) : Chip8 × Nat :=
  let rx := register_x o
  let r1 := updf st.registers rx (st.registers rx ||| st.registers (register_y o))
  let r2 := match st.target with
    | Target.chip8 => updf r1 15 0
    | Target.superChipLegacy | Target.superChip | Target.xoChip => r1
  ({ st with registers := r2 }, 2)

/-- 8XY2: VX := VX & VY; on the original CHIP-8 only, VF is reset to 0. -/
def c8_bitop_and_reg (st : Chip8) (o : Nat) : Chip8 × Nat :=
  let rx := register_x o
  let r1 := updf st.registers rx (st.registers rx &&& st.registers (register_y o))
  let r2 := match st.target with
    | Target.chip8 => updf r1 15 0
    | Target.superChipLegacy | Target.superChip | Target.xoChip => r1
  ({ st with registers := r2 }, 2)

/-- 8XY3: VX := VX ^ VY; on the original CHIP-8 only, VF is reset to 0. -/
def c8_bitop_xor_reg (st : Chip8) (o : Nat) : Chip8 × Nat :=
  let rx := register_x o
  let r1 := updf st.registers rx (st.registers rx ^^^ st.registers (register_y o))
  let r2 := match st.target with
    | Target.chip8 => updf r1 15 0
    | Target.superChipLegacy | Target.superChip | Target.xoChip => r1
  ({ st with registers := r2 }, 2)

/-- 8XY4: VX := VX + VY wrapping; VF := 1 iff unsigned overflow. -/
def c8_math_add_reg (st : Chip8) (o : Nat) : Chip8 × Nat :=
  let rx := register_x o
  let sum := st.registers rx + st.registers (register_y o)
  let r1 := updf st.registers rx (sum % 256)
  ({ st with registers := updf r1 15 (if 256 ≤ sum then 1 else 0) }, 2)

/-- 8XY5: VX := VX - VY wrapping; VF := 1 iff no borrow. -/
def c8_math_sub_reg (st : Chip8) (o : Nat) : Chip8 × Nat :=
  let rx := register_x o
  let a := st.registers rx
  let b := st.registers (register_y o)
  let r1 := updf st.registers rx ((a + 256 - b % 256) % 256)
  ({ st with registers := updf r1 15 (if a < b then 0 else 1) }, 2)

/-- 8XY7: VX := VY - VX wrapping; VF := 1 iff no borrow. -/
def c8_math_neg_reg (st : Chip8) (o : Nat) : Chip8 × Nat :=
  let rx := register_x o
  let a := st.registers rx
  let b := st.registers (register_y o)
  let r1 := updf st.registers rx ((b + 256 - a % 256) % 256)
  ({ st with registers := updf r1 15 (if b < a then 0 else 1) }, 2)

/-- 8XY6: shift right; source register is VY on CHIP-8/XO-Chip, VX on the
SuperChip family; VF receives the bit shifted out. -/
def c8_bitop_shr_reg (st : Chip8) (o : Nat) : Chip8 × Nat :=
  let rx := register_x o
  let val := match st.target with
    | Target.chip8 | Target.xoChip => st.registers (register_y o)
    | Target.superChipLegacy | Target.superChip => st.registers rx
  let r1 := updf st.registers rx (val >>> 1)
  ({ st with registers := updf r1 15 (val &&& 0x1) }, 2)

/-- 8XYE: shift left (wrapping u8); source selection as for 8XY6; VF
receives the bit shifted out. -/
def c8_bitop_shl_reg (st : Chip8) (o : Nat) : Chip8 × Nat :=
  let rx := register_x o
  let val := match st.target with
    | Target.chip8 | Target.xoChip => st.registers (register_y o)
    | Target.superChipLegacy | Target.superChip => st.registers rx
  let r1 := updf st.registers rx ((val <<< 1) % 256)
  ({ st with registers := updf r1 15 ((val >>> 7) &&& 0x1) }, 2)

/-- 9XY0: skip if VX does not equal VY. -/
def c8_cond_skipifneq_reg (st : Chip8) (o : Nat) : Chip8 × Nat :=
  (st, if st.registers (register_x o) = st.registers (register_y o) then 2 else 4)

/-- ANNN: I := NNN. -/
def c8_mem_store (st : Chip8) (o : Nat) : Chip8 × Nat :=
  ({ st with i := o &&& 0x0FFF }, 2)

/-- CXNN: VX := NN & random byte (the rng stream models `rng.gen::<u8>()`). -/
def c8_rand_and_reg (st : Chip8) (o : Nat) : Chip8 × Nat :=
  ({ st with
      registers := updf st.registers (register_x o) (opcode_value o &&& (st.rng st.rngIdx % 256))
      rngIdx := st.rngIdx + 1 }, 2)

/-- EX9E: skip if the key indexed by VX is pressed; the `key[...]` indexing
panics when VX is at least 16. -/
def c8_key_pressedskip (st : Chip8) (o : Nat) : Option (Chip8 × Nat) :=
  let v := st.registers (register_x o)
  if v < 16 then some (st, if st.key v then 4 else 2) else none

/-- EXA1: skip if the key indexed by VX is not pressed. -/
def c8_key_notpressedskip (st : Chip8) (o : Nat) : Option (Chip8 × Nat) :=
  let v := st.registers (register_x o)
  if v < 16 then some (st, if st.key v then 2 else 4) else none

/-- FX0A: wait for a keypress; the two-field `key_wait` state machine.
Completion happens only from the `(some true, some k)` state (set by
`set_key` when the captured key is released); all other non-idle states
return a zero pc delta. -/
def c8_key_wait (st : Chip8) (o : Nat) : Chip8 × Nat :=
  match st.key_wait with
  | (some true, some key_num) =>
      ({ st with key_wait := (none, none)
                 registers := updf st.registers (register_x o) key_num }, 2)
  | (none, none) => ({ st with key_wait := (some false, none) }, 0)
  | _ => (st, 0)

/-- FX07: VX := delay timer. -/
def c8_timer_delay_store (st : Chip8) (o : Nat) : Chip8 × Nat :=
  ({ st with registers := updf st.registers (register_x o) st.delay_timer }, 2)

/-- FX15: delay timer := VX. -/
def c8_timer_delay_set (st : Chip8) (o : Nat) : Chip8 × Nat :=
  ({ st with delay_timer := st.registers (register_x o) }, 2)

/-- FX18: sound timer := VX. -/
def c8_timer_sound_set (st : Chip8) (o : Nat) : Chip8 × Nat :=
  ({ st with sound_timer := st.registers (register_x o) }, 2)

/-- FX1E: I := I + VX (u16); if the 12-bit limit is exceeded, subtract
0x1000 and set VF := 1. -/
def c8_mem_addi (st : Chip8) (o : Nat) : Chip8 × Nat :=
  let i1 := (st.i + st.registers (register_x o)) % 65536
  if 0xFFF < i1 then
    ({ st with i := i1 - 0x1000, registers := updf st.registers 15 1 }, 2)
  else
    ({ st with i := i1 }, 2)

/-- FX29: I := address of the builtin 5-byte glyph for the low nibble
of VX (the value is masked with 0xF, not range-checked). -/
def c8_mem_spriteaddr (st : Chip8) (o : Nat) : Chip8 × Nat :=
  ({ st with i := 5 * (st.registers (register_x o) &&& 0xF) }, 2)

/-- FX30 (SuperChip/XO-Chip): I := address of the 10-byte hires glyph when
VX is at most 9, otherwise nothing happens. -/
def sc_hires_font (st : Chip8) (o : Nat) : Chip8 × Nat :=
  let value := st.registers (register_x o)
  if value ≤ 9 then ({ st with i := 10 * value }, 2) else (st, 2)

/-- FX33: store the BCD digits of VX at I, I+1, I+2, exactly as computed in
the source (modulo arithmetic only); the three individual memory indexings
panic out of bounds. -/
def c8_bcd_store (st : Chip8) (o : Nat) : Option (Chip8 × Nat) :=
  let val := st.registers (register_x o)
  let ones := val % 10
  let tens := ((val % 100) - ones) / 10
  let hundreds := (val - (tens + ones)) / 100
  if st.i + 2 < st.profile.memory_capacity then
    some ({ st with
      memory := updf (updf (updf st.memory st.i hundreds) (st.i + 1) tens) (st.i + 2) ones }, 2)
  else none

/-- FX55: copy V0..=VX into memory at I..; CHIP-8 and XO-Chip then advance
I by X+1 (u16 wrapping), the SuperChip family leaves I unchanged.  The
memory slice indexing panics when I+X falls outside memory. -/
def c8_mem_reg_dump (st : Chip8) (o : Nat) : Option (Chip8 × Nat) :=
  let reg_num := (o &&& 0x0F00) >>> 8
  if st.i + reg_num < st.profile.memory_capacity then
    some ({ st with
      memory := fun a =>
        if st.i ≤ a ∧ a ≤ st.i + reg_num then st.registers (a - st.i) else st.memory a
      i := match st.target with
        | Target.chip8 | Target.xoChip => (st.i + reg_num + 1) % 65536
        | Target.superChipLegacy | Target.superChip => st.i }, 2)
  else none

/-- FX65: fill V0..=VX from memory at I..; I handling as for FX55. -/
def c8_mem_reg_load (st : Chip8) (o : Nat) : Option (Chip8 × Nat) :=
  let reg_num := (o &&& 0x0F00) >>> 8
  if st.i + reg_num < st.profile.memory_capacity then
    some ({ st with
      registers := fun r =>
        if r ≤ reg_num then st.memory (st.i + r) else st.registers r
      i := match st.target with
        | Target.chip8 | Target.xoChip => (st.i + reg_num + 1) % 65536
        | Target.superChipLegacy | Target.superChip => st.i }, 2)
  else none

/-- 00FE: disable high-resolution mode (XO-Chip clears the screen on the
mode change); nothing happens when already in low resolution. -/
def sc_display_low (st : Chip8) : Chip8 × Nat :=
  if st.hires then
    let len := st.profile.screen_width * st.profile.screen_height
    let g := if st.target = Target.xoChip
      then (fun p => if p < len then false else st.gfx p) else st.gfx
    ({ st with gfx := g, hires := false, draw := true }, 2)
  else (st, 2)

/-- 00FF: enable high-resolution mode (XO-Chip clears the screen on the
mode change); nothing happens when already in high resolution. -/
def sc_display_high (st : Chip8) : Chip8 × Nat :=
  if st.hires then (st, 2)
  else
    let len := st.profile.screen_width * st.profile.screen_height
    let g := if st.target = Target.xoChip
      then (fun p => if p < len then false else st.gfx p) else st.gfx
    ({ st with gfx := g, hires := true, draw := true }, 2)

/-- Handler bound to opcode FX75 by the dispatch; its own doc comment in
the source says FX75 stores V0..VX into the RPL user flags, and its body
does copy registers into the bank when X is below the profile's
user-register count. -/
def sc_flag_load (st : Chip8) (o : Nat) : Chip8 × Nat :=
  let c := (o &&& 0x0F00) >>> 8
  match st.user_registers with
  | some reg =>
      if c < st.profile.user_register_count then
        ({ st with user_registers := some (fun p => if p ≤ c then st.registers p else reg p) }, 2)
      else (st, 2)
  | none => (st, 2)

/-- Handler bound to opcode FX85 by the dispatch; its own doc comment in
the source says FX85 reads V0..VX from the RPL user flags, and its body
does copy the bank into the registers when X is below the profile's
user-register count. -/
def sc_flag_store (st : Chip8) (o : Nat) : Chip8 × Nat :=
  let c := (o &&& 0x0F00) >>> 8
  match st.user_registers with
  | some reg =>
      if c < st.profile.user_register_count then
        ({ st with registers := fun p => if p ≤ c then reg p else st.registers p }, 2)
      else (st, 2)
  | none => (st, 2)

/-- 00CN: scroll the framebuffer down N rows, vacated rows unset. -/
def sc_scroll_down (st : Chip8) (o : Nat) : Chip8 × Nat :=
  let n := o &&& 0xF
  let w := st.profile.screen_width
  let h := st.profile.screen_height
  ({ st with
      gfx := fun p =>
        if p < n * w then false
        else if p < h * w then st.gfx (p - n * w)
        else st.gfx p
      draw := true }, 2)

/-- 00DN (XO-Chip): scroll the framebuffer up N rows, vacated rows unset. -/
def xo_scroll_up (st : Chip8) (o : Nat) : Chip8 × Nat :=
  let n := o &&& 0xF
  let w := st.profile.screen_width
  let h := st.profile.screen_height
  ({ st with
      gfx := fun p =>
        if p < (h - n) * w then st.gfx (p + n * w)
        else if p < h * w then false
        else st.gfx p
      draw := true }, 2)

/-- 00FB: scroll the framebuffer right 4 columns, vacated columns unset. -/
def sc_scroll_right (st : Chip8) : Chip8 × Nat :=
  let w := st.profile.screen_width
  let h := st.profile.screen_height
  ({ st with
      gfx := fun p =>
        if p < w * h ∧ p % w < 4 then false
        else if 4 ≤ p ∧ p < w * h then st.gfx (p - 4)
        else st.gfx p
      draw := true }, 2)

/-- 00FC: scroll the framebuffer left 4 columns, vacated columns unset. -/
def sc_scroll_left (st : Chip8) : Chip8 × Nat :=
  let w := st.profile.screen_width
  let h := st.profile.screen_height
  ({ st with
      gfx := fun p =>
        if p < w * h ∧ w - 4 ≤ p % w then false
        else if p + 4 < w * h then st.gfx (p + 4)
        else st.gfx p
      draw := true }, 2)

/-- One conditional XOR-plot of `draw_sprite`'s inner loop body: when the
sprite bit selected by `0x80u8.rotate_right(xline)` is set, accumulate the
collision flag from the current cell and toggle it (`get_mut` silently
skips an out-of-range offset). -/
def plotBit (gfxLen memValue xline offset : Nat) (gu : (Nat → Bool) × Bool) :
    (Nat → Bool) × Bool :=
  if memValue &&& (0x80 >>> (xline % 8)) ≠ 0 then
    (if offset < gfxLen then (fun p => if p = offset then !(gu.1 p) else gu.1 p) else gu.1,
     gu.2 || gu.1 offset)
  else gu

/-- Inner `for xline in 0..size` loop of `Chip8::draw_sprite`: `xline` is
the current column index, the second argument the remaining iteration
count; XO-Chip wraps the column modulo `width`, the other targets break
at the right screen edge. -/
def drawXLoop (target : Target) (gfxLen scrW width memValue xPos yTemp : Nat) :
    Nat → Nat → (Nat → Bool) × Bool → (Nat → Bool) × Bool
  | _, 0, gu => gu
  | xline, rem + 1, gu =>
    let xOff0 := xPos + xline
    if target = Target.xoChip then
      drawXLoop target gfxLen scrW width memValue xPos yTemp (xline + 1) rem
        (plotBit gfxLen memValue xline (yTemp + xOff0 % width) gu)
    else if width ≤ xOff0 then gu
    else
      drawXLoop target gfxLen scrW width memValue xPos yTemp (xline + 1) rem
        (plotBit gfxLen memValue xline (yTemp + xOff0) gu)

/-- Outer `for yline in 0..data_count` loop of `Chip8::draw_sprite`:
XO-Chip wraps the row modulo `height`, the other targets break at the
bottom screen edge; the sprite byte read `memory[i + yline]` panics
(`none`) when out of bounds. -/
def drawYLoop (target : Target) (cap gfxLen scrW width height : Nat) (mem : Nat → Nat)
    (i xPos yPos size : Nat) :
    Nat → Nat → (Nat → Bool) × Bool → Option ((Nat → Bool) × Bool)
  | _, 0, gu => some gu
  | yline, rem + 1, gu =>
    let yOff0 := yPos + yline
    if target = Target.xoChip then
      if i + yline < cap then
        drawYLoop target cap gfxLen scrW width height mem i xPos yPos size (yline + 1) rem
          (drawXLoop target gfxLen scrW width (mem (i + yline)) xPos ((yOff0 % height) * scrW)
            0 size gu)
      else none
    else if height ≤ yOff0 then some gu
    else
      if i + yline < cap then
        drawYLoop target cap gfxLen scrW width height mem i xPos yPos size (yline + 1) rem
          (drawXLoop target gfxLen scrW width (mem (i + yline)) xPos (yOff0 * scrW)
            0 size gu)
      else none

/-- `Chip8::draw_sprite`: wrap the start position, run the row loop over
the live framebuffer, return the updated state and the collision flag. -/
def draw_sprite (st : Chip8) (size x y width height data_count : Nat) :
    Option (Chip8 × Bool) :=
  let xPos := x % width
  let yPos := y % height
  (drawYLoop st.target st.profile.memory_capacity
      (st.profile.screen_width * st.profile.screen_height)
      st.profile.screen_width width height st.memory st.i xPos yPos size
      0 data_count (st.gfx, false)).map
    fun gu => ({ st with gfx := gu.1 }, gu.2)

/-- DXYN (`Chip8::c8_draw_sprite`): effective surface is halved in low
resolution on SuperChip/XO-Chip; N=0 in hires mode on those targets draws
the 16x16 super sprite; VF reports whether any set pixel became unset. -/
def c8_draw_sprite (st : Chip8) (o : Nat) : Option (Chip8 × Nat) :=
  let reg_x := register_x o
  let reg_y := register_y o
  let data_count := o &&& 0x000F
  let scxo := isSC st.target || isXO st.target
  let w := if scxo ∧ ¬st.hires then st.profile.screen_width / 2 else st.profile.screen_width
  let h := if scxo ∧ ¬st.hires then st.profile.screen_height / 2 else st.profile.screen_height
  let res :=
    if scxo ∧ st.hires ∧ data_count = 0 then
      draw_sprite st 16 (st.registers reg_x) (st.registers reg_y) w h 16
    else
      draw_sprite st 8 (st.registers reg_x) (st.registers reg_y) w h data_count
  res.map fun su =>
    ({ su.1 with draw := true
                 registers := updf su.1.registers 15 (if su.2 then 1 else 0) }, 2)

/-- Single XOR-toggle of a framebuffer cell, skipped out of range
(`BitSlice::get_mut` semantics); the elementary step `plotBit` performs. -/
def toggleAt (gfxLen : Nat) (g : Nat → Bool) (o : Nat) : Nat → Bool :=
  if o < gfxLen then fun p => if p = o then !(g p) else g p else g

/-- Replay a list of plot events (framebuffer offsets hit by a set sprite
bit) over a framebuffer and a collision accumulator; this is the
specification the draw loops are proved to implement. -/
def applyEvents (gfxLen : Nat) : List Nat → (Nat → Bool) × Bool → (Nat → Bool) × Bool
  | [], gu => gu
  | o :: rest, gu => applyEvents gfxLen rest (toggleAt gfxLen gu.1 o, gu.2 || gu.1 o)

/-- The plot events generated by one sprite row (mirrors the control flow
of `drawXLoop` without touching the framebuffer). -/
def rowEvents (target : Target) (width memValue xPos yTemp : Nat) : Nat → Nat → List Nat
  | _, 0 => []
  | xline, rem + 1 =>
    let xOff0 := xPos + xline
    if target = Target.xoChip then
      (if memValue &&& (0x80 >>> (xline % 8)) ≠ 0 then [yTemp + xOff0 % width] else [])
        ++ rowEvents target width memValue xPos yTemp (xline + 1) rem
    else if width ≤ xOff0 then []
    else
      (if memValue &&& (0x80 >>> (xline % 8)) ≠ 0 then [yTemp + xOff0] else [])
        ++ rowEvents target width memValue xPos yTemp (xline + 1) rem

/-- The plot events generated by a whole sprite (mirrors the control flow
of `drawYLoop` without touching the framebuffer). -/
def spriteEvents (target : Target) (scrW width height : Nat) (mem : Nat → Nat)
    (i xPos yPos size : Nat) : Nat → Nat → List Nat
  | _, 0 => []
  | yline, rem + 1 =>
    let yOff0 := yPos + yline
    if target = Target.xoChip then
      rowEvents target width (mem (i + yline)) xPos ((yOff0 % height) * scrW) 0 size
        ++ spriteEvents target scrW width height mem i xPos yPos size (yline + 1) rem
    else if height ≤ yOff0 then []
    else
      rowEvents target width (mem (i + yline)) xPos (yOff0 * scrW) 0 size
        ++ spriteEvents target scrW width height mem i xPos yPos size (yline + 1) rem

/-- The row index a sprite row `y` lands on: wrapped modulo the effective
height on XO-Chip, unwrapped (and clipped by the caller) otherwise. -/
def yRow (target : Target) (yPos height y : Nat) : Nat :=
  if target = Target.xoChip then (yPos + y) % height else yPos + y

/-- Effective drawing width selected by `c8_draw_sprite` (halved in low
resolution on SuperChip/XO-Chip). -/
def drawW (st : Chip8) : Nat :=
  if (isSC st.target || isXO st.target) ∧ ¬st.hires
  then st.profile.screen_width / 2 else st.profile.screen_width

/-- Effective drawing height selected by `c8_draw_sprite`. -/
def drawH (st : Chip8) : Nat :=
  if (isSC st.target || isXO st.target) ∧ ¬st.hires
  then st.profile.screen_height / 2 else st.profile.screen_height

/-- Sprite width in pixels selected by `c8_draw_sprite` (16 for the hires
super sprite, 8 otherwise). -/
def drawSize (st : Chip8) (o : Nat) : Nat :=
  if (isSC st.target || isXO st.target) ∧ st.hires ∧ (o &&& 0x000F) = 0 then 16 else 8

/-- Sprite row count selected by `c8_draw_sprite` (16 for the hires super
sprite, N otherwise). -/
def drawCount (st : Chip8) (o : Nat) : Nat :=
  if (isSC st.target || isXO st.target) ∧ st.hires ∧ (o &&& 0x000F) = 0 then 16
  else o &&& 0x000F

/-- Delta-returning part of the `emulate_cycle` dispatch, in source match
order; an opcode matching no arm is the fatal `panic!` (`none`). -/
def step_opcode (st : Chip8) (o : Nat) : Option (Chip8 × Nat) :=
  let scxo := isSC st.target || isXO st.target
  if o = 0x00E0 then some (c8_display_clear st)
  else if o &&& 0xFFF0 = 0x00C0 ∧ scxo then some (sc_scroll_down st o)
  else if o &&& 0xFFF0 = 0x00D0 ∧ isXO st.target then some (xo_scroll_up st o)
  else if o = 0x00FB ∧ scxo then some (sc_scroll_right st)
  else if o = 0x00FC ∧ scxo then some (sc_scroll_left st)
  else if o = 0x00FE ∧ scxo then some (sc_display_low st)
  else if o = 0x00FF ∧ scxo then some (sc_display_high st)
  else if o &&& 0xF000 = 0x0000 then some (st, 2)
  else if o &&& 0xF000 = 0x3000 then some (c8_cond_skip_eq_num st o)
  else if o &&& 0xF000 = 0x4000 then some (c8_cond_skip_neq_num st o)
  else if o &&& 0xF00F = 0x5000 then some (c8_cond_skip_eq_reg st o)
  else if o &&& 0xF000 = 0x6000 then some (c8_const_set_num st o)
  else if o &&& 0xF000 = 0x7000 then some (c8_const_add_num st o)
  else if o &&& 0xF00F = 0x8000 then some (c8_assign_set_reg st o)
  else if o &&& 0xF00F = 0x8001 then some (c8_bitop_or_reg st o)
  else if o &&& 0xF00F = 0x8002 then some (c8_bitop_and_reg st o)
  else if o &&& 0xF00F = 0x8003 then some (c8_bitop_xor_reg st o)
  else if o &&& 0xF00F = 0x8004 then some (c8_math_add_reg st o)
  else if o &&& 0xF00F = 0x8005 then some (c8_math_sub_reg st o)
  else if o &&& 0xF00F = 0x8006 then some (c8_bitop_shr_reg st o)
  else if o &&& 0xF00F = 0x8007 then some (c8_math_neg_reg st o)
  else if o &&& 0xF00F = 0x800E then some (c8_bitop_shl_reg st o)
  else if o &&& 0xF00F = 0x9000 then some (c8_cond_skipifneq_reg st o)
  else if o &&& 0xF000 = 0xA000 then some (c8_mem_store st o)
  else if o &&& 0xF000 = 0xC000 then some (c8_rand_and_reg st o)
  else if o &&& 0xF000 = 0xD000 then c8_draw_sprite st o
  else if o &&& 0xF0FF = 0xE09E then c8_key_pressedskip st o
  else if o &&& 0xF0FF = 0xE0A1 then c8_key_notpressedskip st o
  else if o &&& 0xF0FF = 0xF00A then some (c8_key_wait st o)
  else if o &&& 0xF0FF = 0xF007 then some (c8_timer_delay_store st o)
  else if o &&& 0xF0FF = 0xF015 then some (c8_timer_delay_set st o)
  else if o &&& 0xF0FF = 0xF018 then some (c8_timer_sound_set st o)
  else if o &&& 0xF0FF = 0xF01E then some (c8_mem_addi st o)
  else if o &&& 0xF0FF = 0xF029 then some (c8_mem_spriteaddr st o)
  else if o &&& 0xF0FF = 0xF030 ∧ scxo then some (sc_hires_font st o)
  else if o &&& 0xF0FF = 0xF033 then c8_bcd_store st o
  else if o &&& 0xF0FF = 0xF055 then c8_mem_reg_dump st o
  else if o &&& 0xF0FF = 0xF065 then c8_mem_reg_load st o
  else if o &&& 0xF0FF = 0xF075 ∧ scxo then some (sc_flag_store st o)
  else if o &&& 0xF0FF = 0xF085 ∧ scxo then some (sc_flag_load st o)
  else none

/-- `Chip8::emulate_cycle`: fetch the big-endian opcode at pc (panicking,
hence `none`, when the fetch is out of bounds), return Quit immediately on
00FD for SuperChip/XO-Chip, run the pc-rewriting flow opcodes directly,
otherwise execute the instruction body and add its pc delta (u16). -/
def emulate_cycle (st : Chip8) : Option (Chip8 × Option Action) :=
  if st.pc + 1 < st.profile.memory_capacity then
    let opcode := ((st.memory st.pc) <<< 8) ||| (st.memory (st.pc + 1))
    if opcode = 0x00FD ∧ (isSC st.target || isXO st.target) then
      some (st, some Action.quit)
    else if opcode = 0x00EE then (c8_flow_return st).map fun s => (s, none)
    else if opcode &&& 0xF000 = 0x1000 then some (c8_flow_goto st opcode, none)
    else if opcode &&& 0xF000 = 0x2000 then (c8_flow_gosub st opcode).map fun s => (s, none)
    else if opcode &&& 0xF000 = 0xB000 then some (c8_flow_jump st opcode, none)
    else
      (step_opcode st opcode).map fun p => ({ p.1 with pc := (p.1.pc + p.2) % 65536 }, none)
  else none

/-! Concrete states used by counterexamples and witnesses. -/

/-- SuperChip state about to execute opcode 0xF075 with V0 = 5 and an
all-zero RPL user-flag bank. -/
def c1state : Chip8 :=
  { load_rom (Chip8.new Target.superChip (fun _ => 0)) [0xF0, 0x75] with
      registers := fun r => if r = 0 then 5 else 0 }

/-- Fresh SuperChip state (low-resolution mode). -/
def c2state : Chip8 := Chip8.new Target.superChip (fun _ => 0)

/-- CHIP-8 state whose ROM is ANNN (I := 0xFFF) followed by F055 (X = 0). -/
def c4state : Chip8 := load_rom (Chip8.new Target.chip8 (fun _ => 0)) [0xAF, 0xFF, 0xF0, 0x55]

/-- CHIP-8 state with I = 0xFFE and V3 = 4 (FX1E wrap case). -/
def c4wstate : Chip8 :=
  { Chip8.new Target.chip8 (fun _ => 0) with
      registers := fun r => if r = 3 then 4 else 0, i := 0xFFE }

/-- CHIP-8 state with every register holding 0x1F (outside the glyph
range) and I = 0x200. -/
def c5state : Chip8 :=
  { Chip8.new Target.chip8 (fun _ => 0) with registers := fun _ => 0x1F, i := 0x200 }

/-- CHIP-8 state with V3 = 229 and I = 0x300. -/
def c6state : Chip8 :=
  { Chip8.new Target.chip8 (fun _ => 0) with
      registers := fun r => if r = 3 then 229 else 0, i := 0x300 }

/-- CHIP-8 state with V15 = 5 and every other register 0. -/
def c7state : Chip8 :=
  { Chip8.new Target.chip8 (fun _ => 0) with registers := fun r => if r = 15 then 5 else 0 }

/-- CHIP-8 state with V2 = 200 and V3 = 100. -/
def c7wstate : Chip8 :=
  { Chip8.new Target.chip8 (fun _ => 0) with
      registers := fun r => if r = 2 then 200 else if r = 3 then 100 else 0 }

/-- SuperChip state with V0..V3 = 0xDE 0xAD 0xBE 0xEF and I = 0xC60
(the FX55 scenario of the specification). -/
def c8wstate : Chip8 :=
  { Chip8.new Target.superChip (fun _ => 0) with
      registers := fun r =>
        if r = 0 then 0xDE else if r = 1 then 0xAD
        else if r = 2 then 0xBE else if r = 3 then 0xEF else 0
      i := 0xC60 }

/-- CHIP-8 state with a cleared framebuffer, the two-row sprite A5 A5 at
I = 0, and draw position V0 = 3, V1 = 4. -/
def c9wstate : Chip8 :=
  { Chip8.new Target.chip8 (fun _ => 0) with
      memory := fun a => if a < 2 then 0xA5 else 0
      i := 0
      registers := fun r => if r = 0 then 3 else if r = 1 then 4 else 0 }

/-- SuperChip state whose ROM is the single opcode 00FD. -/
def c10state : Chip8 := load_rom (Chip8.new Target.superChip (fun _ => 0)) [0x00, 0xFD]

/-- CHIP-8 state whose ROM is the single opcode 00FD. -/
def c10state8 : Chip8 := load_rom (Chip8.new Target.chip8 (fun _ => 0)) [0x00, 0xFD]

/-- CHIP-8 state whose ROM is the single opcode F00A (wait for key into
V0), with no key pressed. -/
def c3state : Chip8 := load_rom (Chip8.new Target.chip8 (fun _ => 0)) [0xF0, 0x0A]

/-! Helper lemmas. -/

/-- Masking with 0xF is reduction modulo 16. -/
theorem land_fifteen (n : Nat) : n &&& 15 = n % 16 := by
  have h := Nat.and_pow_two_sub_one_eq_mod n 4
  norm_num at h
  omega

/-- Masking with 0xFFF is reduction modulo 0x1000, hence at most 0xFFF. -/
theorem land_fff_le (n : Nat) : n &&& 0xFFF ≤ 0xFFF := by
  have h := Nat.and_pow_two_sub_one_eq_mod n 12
  norm_num at h
  omega

/-- Every profile has memory capacity at least 0x1000. -/
theorem profiles_capacity_ge (t : Target) : 0x1000 ≤ (profiles t).memory_capacity := by
  cases t <;> decide

/-! Event-list semantics of the sprite-draw loops. -/

/-- One plot step is the replay of a zero- or one-element event list. -/
theorem plotBit_eq (len mv xline off : Nat) (gu : (Nat → Bool) × Bool) :
    plotBit len mv xline off gu
      = applyEvents len (if mv &&& (0x80 >>> (xline % 8)) ≠ 0 then [off] else []) gu := by
  by_cases hb : mv &&& (0x80 >>> (xline % 8)) ≠ 0
  · rw [if_pos hb]
    simp only [applyEvents]
    unfold plotBit toggleAt
    rw [if_pos hb]
  · rw [if_neg hb]
    simp only [applyEvents]
    unfold plotBit
    rw [if_neg hb]

/-- Replaying an appended event list is sequential replay. -/
theorem applyEvents_append (len : Nat) (l1 l2 : List Nat) :
    ∀ gu, applyEvents len (l1 ++ l2) gu = applyEvents len l2 (applyEvents len l1 gu) := by
  induction l1 with
  | nil => intro gu; rfl
  | cons o rest ih =>
      intro gu
      simp only [List.cons_append, applyEvents]
      exact ih _

/-- The inner draw loop replays exactly its row's event list. -/
theorem drawXLoop_eq (t : Target) (len scrW w mv xPos yTemp : Nat) :
    ∀ rem xline gu,
      drawXLoop t len scrW w mv xPos yTemp xline rem gu
        = applyEvents len (rowEvents t w mv xPos yTemp xline rem) gu := by
  intro rem
  induction rem with
  | zero => intro xline gu; rfl
  | succ n ih =>
      intro xline gu
      simp only [drawXLoop, rowEvents]
      by_cases h1 : t = Target.xoChip
      · rw [if_pos h1, if_pos h1, ih, plotBit_eq, ← applyEvents_append]
      · rw [if_neg h1, if_neg h1]
        by_cases h2 : w ≤ xPos + xline
        · rw [if_pos h2, if_pos h2]
          rfl
        · rw [if_neg h2, if_neg h2, ih, plotBit_eq, ← applyEvents_append]

/-- The outer draw loop replays the whole sprite's event list, provided
every processed sprite byte is in bounds. -/
theorem drawYLoop_eq (t : Target) (cap len scrW w h : Nat) (mem : Nat → Nat)
    (i xPos yPos size : Nat) :
    ∀ rem yline gu, (∀ k, k < rem → i + (yline + k) < cap) →
      drawYLoop t cap len scrW w h mem i xPos yPos size yline rem gu
        = some (applyEvents len
            (spriteEvents t scrW w h mem i xPos yPos size yline rem) gu) := by
  intro rem
  induction rem with
  | zero => intro yline gu hcap; rfl
  | succ n ih =>
      intro yline gu hcap
      have h0 : i + yline < cap := by
        have := hcap 0 (Nat.succ_pos n)
        omega
      simp only [drawYLoop, spriteEvents]
      by_cases h1 : t = Target.xoChip
      · rw [if_pos h1, if_pos h1, if_pos h0]
        rw [ih (yline + 1) _ (fun k hk => by have := hcap (k + 1) (by omega); omega)]
        rw [drawXLoop_eq, ← applyEvents_append]
      · rw [if_neg h1, if_neg h1]
        by_cases h2 : h ≤ yPos + yline
        · rw [if_pos h2, if_pos h2]
          rfl
        · rw [if_neg h2, if_neg h2, if_pos h0]
          rw [ih (yline + 1) _ (fun k hk => by have := hcap (k + 1) (by omega); omega)]
          rw [drawXLoop_eq, ← applyEvents_append]

/-- Congruence for `List.any` over functions agreeing on the list. -/
theorem any_congr_on {l : List Nat} {f g : Nat → Bool} (h : ∀ x ∈ l, f x = g x) :
    l.any f = l.any g := by
  induction l with
  | nil => rfl
  | cons a t ih =>
      simp only [List.any_cons]
      rw [h a (List.mem_cons_self a t), ih (fun x hx => h x (List.mem_cons_of_mem a hx))]

/-- Toggling one cell leaves every other cell unchanged. -/
theorem toggleAt_ne (len : Nat) (g : Nat → Bool) (o p : Nat) (h : p ≠ o) :
    toggleAt len g o p = g p := by
  unfold toggleAt
  split_ifs <;> simp [h]

/-- Replaying a duplicate-free event list toggles exactly the in-range
cells that occur in it. -/
theorem applyEvents_gfx (len : Nat) :
    ∀ (evs : List Nat), evs.Nodup → ∀ (gu : (Nat → Bool) × Bool) (p : Nat),
      (applyEvents len evs gu).1 p
        = if p ∈ evs ∧ p < len then !(gu.1 p) else gu.1 p := by
  intro evs
  induction evs with
  | nil => intro _ gu p; simp [applyEvents]
  | cons o rest ih =>
      intro hnd gu p
      obtain ⟨ho, hrest⟩ := List.nodup_cons.mp hnd
      simp only [applyEvents]
      rw [ih hrest]
      by_cases hp : p = o
      · subst hp
        rw [if_neg (fun hc => ho hc.1)]
        by_cases hlen : p < len
        · rw [if_pos ⟨List.mem_cons_self p rest, hlen⟩]
          simp [toggleAt, hlen]
        · rw [if_neg (fun hc => hlen hc.2)]
          simp [toggleAt, hlen]
      · simp only [toggleAt_ne len gu.1 o p hp, List.mem_cons, hp, false_or]

/-- Replaying a duplicate-free event list reports a collision exactly when
some listed cell was already set beforehand. -/
theorem applyEvents_unset (len : Nat) :
    ∀ (evs : List Nat), evs.Nodup → ∀ (gu : (Nat → Bool) × Bool),
      (applyEvents len evs gu).2 = (gu.2 || evs.any fun o => gu.1 o) := by
  intro evs
  induction evs with
  | nil => intro _ gu; simp [applyEvents]
  | cons o rest ih =>
      intro hnd gu
      obtain ⟨ho, hrest⟩ := List.nodup_cons.mp hnd
      simp only [applyEvents]
      rw [ih hrest]
      have hany : (rest.any fun q => toggleAt len gu.1 o q) = rest.any fun q => gu.1 q :=
        any_congr_on (fun q hq => toggleAt_ne len gu.1 o q (fun he => ho (he ▸ hq)))
      rw [hany]
      simp [List.any_cons, Bool.or_assoc, Bool.or_comm, Bool.or_left_comm]

/-- The column a sprite column `x` lands on: wrapped modulo the effective
width on XO-Chip, unwrapped (and clipped by the caller) otherwise. -/
def xCol (t : Target) (w xPos x : Nat) : Nat :=
  if t = Target.xoChip then (xPos + x) % w else xPos + x

/-- If two multiples of a row stride plus in-stride offsets coincide, the
row indices coincide. -/
theorem row_offset_inj {scrW a b c1 c2 : Nat} (h1 : c1 < scrW) (h2 : c2 < scrW)
    (he : a * scrW + c1 = b * scrW + c2) : a = b := by
  rcases Nat.lt_trichotomy a b with hl | hx | hl
  · have h3 : (a + 1) * scrW ≤ b * scrW := Nat.mul_le_mul_right scrW (by omega)
    rw [add_mul, one_mul] at h3
    omega
  · exact hx
  · have h3 : (b + 1) * scrW ≤ a * scrW := Nat.mul_le_mul_right scrW (by omega)
    rw [add_mul, one_mul] at h3
    omega

/-- Two distinct values less than a window of width `w` apart have
distinct residues modulo `w`. -/
theorem mod_inj_window {w a b : Nat} (hab : a < b) (hd : b - a < w)
    (he : a % w = b % w) : False := by
  have h2 : w ∣ b - a := (Nat.modEq_iff_dvd' (le_of_lt hab)).mp he
  have h4 : w ≤ b - a := Nat.le_of_dvd (by omega) h2
  omega

/-- Every row event is the row base plus a column produced from some loop
index in the remaining window; on the clipping targets the column is
bounded by the effective width. -/
theorem mem_rowEvents (t : Target) (w mv xPos yTemp : Nat) :
    ∀ rem xline o, o ∈ rowEvents t w mv xPos yTemp xline rem →
      ∃ x, xline ≤ x ∧ x < xline + rem ∧ o = yTemp + xCol t w xPos x ∧
        (t ≠ Target.xoChip → xPos + x < w) := by
  intro rem
  induction rem with
  | zero => intro xline o ho; cases ho
  | succ n ih =>
      intro xline o ho
      simp only [rowEvents] at ho
      by_cases h1 : t = Target.xoChip
      · rw [if_pos h1] at ho
        rcases List.mem_append.mp ho with hh | ht
        · refine ⟨xline, le_refl _, by omega, ?_, fun hne => absurd h1 hne⟩
          unfold xCol
          rw [if_pos h1]
          by_cases hb : mv &&& (0x80 >>> (xline % 8)) ≠ 0
          · rw [if_pos hb] at hh
            simpa using hh
          · rw [if_neg hb] at hh
            cases hh
        · obtain ⟨x, hx1, hx2, hx3, hx4⟩ := ih (xline + 1) o ht
          exact ⟨x, by omega, by omega, hx3, hx4⟩
      · rw [if_neg h1] at ho
        by_cases h2 : w ≤ xPos + xline
        · rw [if_pos h2] at ho
          cases ho
        · rw [if_neg h2] at ho
          rcases List.mem_append.mp ho with hh | ht
          · refine ⟨xline, le_refl _, by omega, ?_, fun _ => by omega⟩
            unfold xCol
            rw [if_neg h1]
            by_cases hb : mv &&& (0x80 >>> (xline % 8)) ≠ 0
            · rw [if_pos hb] at hh
              simpa using hh
            · rw [if_neg hb] at hh
              cases hh
          · obtain ⟨x, hx1, hx2, hx3, hx4⟩ := ih (xline + 1) o ht
            exact ⟨x, by omega, by omega, hx3, hx4⟩

/-- A row's event list is duplicate-free (the wrap target needs the
remaining window to fit inside the effective width). -/
theorem rowEvents_nodup (t : Target) (w mv xPos yTemp : Nat) :
    ∀ rem xline, (t = Target.xoChip → rem ≤ w) →
      (rowEvents t w mv xPos yTemp xline rem).Nodup := by
  intro rem
  induction rem with
  | zero => intro xline hw; exact List.nodup_nil
  | succ n ih =>
      intro xline hw
      simp only [rowEvents]
      by_cases h1 : t = Target.xoChip
      · rw [if_pos h1]
        by_cases hb : mv &&& (0x80 >>> (xline % 8)) ≠ 0
        · rw [if_pos hb]
          rw [List.singleton_append, List.nodup_cons]
          refine ⟨?_, ih (xline + 1) (fun ht => by have := hw ht; omega)⟩
          intro hmem
          obtain ⟨x, hx1, hx2, hx3, _⟩ := mem_rowEvents t w mv xPos yTemp n (xline + 1) _ hmem
          unfold xCol at hx3
          rw [if_pos h1] at hx3
          have heq : (xPos + xline) % w = (xPos + x) % w := by omega
          exact mod_inj_window (by omega) (by have := hw h1; omega) heq
        · rw [if_neg hb, List.nil_append]
          exact ih (xline + 1) (fun ht => by have := hw ht; omega)
      · rw [if_neg h1]
        by_cases h2 : w ≤ xPos + xline
        · rw [if_pos h2]
          exact List.nodup_nil
        · rw [if_neg h2]
          by_cases hb : mv &&& (0x80 >>> (xline % 8)) ≠ 0
          · rw [if_pos hb]
            rw [List.singleton_append, List.nodup_cons]
            refine ⟨?_, ih (xline + 1) (fun ht => absurd ht h1)⟩
            intro hmem
            obtain ⟨x, hx1, hx2, hx3, _⟩ := mem_rowEvents t w mv xPos yTemp n (xline + 1) _ hmem
            unfold xCol at hx3
            rw [if_neg h1] at hx3
            omega
          · rw [if_neg hb, List.nil_append]
            exact ih (xline + 1) (fun ht => absurd ht h1)

/-- Every sprite event decomposes as an in-bounds row index times the
screen stride plus a column below the effective width. -/
theorem mem_spriteEvents (t : Target) (scrW w h : Nat) (mem : Nat → Nat)
    (i xPos yPos size : Nat) (hw : 0 < w) (hh : 0 < h)
    (hclip : t ≠ Target.xoChip → ∀ x, xCol t w xPos x = xPos + x) :
    ∀ rem yline o, o ∈ spriteEvents t scrW w h mem i xPos yPos size yline rem →
      ∃ y c, yline ≤ y ∧ y < yline + rem ∧ c < w ∧
        yRow t yPos h y < h ∧ o = yRow t yPos h y * scrW + c := by
  intro rem
  induction rem with
  | zero => intro yline o ho; cases ho
  | succ n ih =>
      intro yline o ho
      simp only [spriteEvents] at ho
      by_cases h1 : t = Target.xoChip
      · rw [if_pos h1] at ho
        rcases List.mem_append.mp ho with hb | ht
        · obtain ⟨x, _, _, hx3, _⟩ := mem_rowEvents t w _ xPos _ size 0 o hb
          refine ⟨yline, xCol t w xPos x, le_refl _, by omega, ?_, ?_, ?_⟩
          · unfold xCol
            rw [if_pos h1]
            exact Nat.mod_lt _ hw
          · unfold yRow
            rw [if_pos h1]
            exact Nat.mod_lt _ hh
          · unfold yRow
            rw [if_pos h1]
            omega
        · obtain ⟨y, c, hy1, hy2, hy3, hy4, hy5⟩ := ih (yline + 1) o ht
          exact ⟨y, c, by omega, by omega, hy3, hy4, hy5⟩
      · rw [if_neg h1] at ho
        by_cases h2 : h ≤ yPos + yline
        · rw [if_pos h2] at ho
          cases ho
        · rw [if_neg h2] at ho
          rcases List.mem_append.mp ho with hb | ht
          · obtain ⟨x, _, _, hx3, hx4⟩ := mem_rowEvents t w _ xPos _ size 0 o hb
            rw [hclip h1 x] at hx3
            refine ⟨yline, xPos + x, le_refl _, by omega, hx4 h1, ?_, ?_⟩
            · unfold yRow
              rw [if_neg h1]
              omega
            · unfold yRow
              rw [if_neg h1]
              omega
          · obtain ⟨y, c, hy1, hy2, hy3, hy4, hy5⟩ := ih (yline + 1) o ht
            exact ⟨y, c, by omega, by omega, hy3, hy4, hy5⟩

/-- A sprite's event list is duplicate-free: rows land on distinct bands
of the framebuffer and each row is duplicate-free. -/
theorem spriteEvents_nodup (t : Target) (scrW w h : Nat) (mem : Nat → Nat)
    (i xPos yPos size : Nat) (hw : 0 < w) (hh : 0 < h) (hwW : w ≤ scrW)
    (hsize : t = Target.xoChip → size ≤ w) :
    ∀ rem yline, (t = Target.xoChip → rem ≤ h) →
      (spriteEvents t scrW w h mem i xPos yPos size yline rem).Nodup := by
  have hclip : t ≠ Target.xoChip → ∀ x, xCol t w xPos x = xPos + x := by
    intro hne x
    unfold xCol
    rw [if_neg hne]
  intro rem
  induction rem with
  | zero => intro yline hrem; exact List.nodup_nil
  | succ n ih =>
      intro yline hrem
      simp only [spriteEvents]
      by_cases h1 : t = Target.xoChip
      · rw [if_pos h1]
        refine List.Nodup.append
          (rowEvents_nodup t w _ xPos _ size 0 (fun ht => hsize ht))
          (ih (yline + 1) (fun ht => by have := hrem ht; omega)) ?_
        intro o hb ht
        obtain ⟨x, _, _, hx3, _⟩ := mem_rowEvents t w _ xPos _ size 0 o hb
        obtain ⟨y, c, hy1, hy2, hy3, hy4, hy5⟩ :=
          mem_spriteEvents t scrW w h mem i xPos yPos size hw hh hclip n (yline + 1) o ht
        have hc1 : xCol t w xPos x < w := by
          unfold xCol
          rw [if_pos h1]
          exact Nat.mod_lt _ hw
        have heq : ((yPos + yline) % h) * scrW + xCol t w xPos x
            = yRow t yPos h y * scrW + c := by
          rw [← hx3]
          exact hy5
        have hrow : (yPos + yline) % h = yRow t yPos h y :=
          row_offset_inj (by omega) (by omega) heq
        unfold yRow at hrow
        rw [if_pos h1] at hrow
        exact mod_inj_window (a := yPos + yline) (b := yPos + y) (by omega)
          (by have := hrem h1; omega) hrow
      · rw [if_neg h1]
        by_cases h2 : h ≤ yPos + yline
        · rw [if_pos h2]
          exact List.nodup_nil
        · rw [if_neg h2]
          refine List.Nodup.append
            (rowEvents_nodup t w _ xPos _ size 0 (fun ht => absurd ht h1))
            (ih (yline + 1) (fun ht => absurd ht h1)) ?_
          intro o hb ht
          obtain ⟨x, _, _, hx3, hx4⟩ := mem_rowEvents t w _ xPos _ size 0 o hb
          rw [hclip h1 x] at hx3
          obtain ⟨y, c, hy1, hy2, hy3, hy4, hy5⟩ :=
            mem_spriteEvents t scrW w h mem i xPos yPos size hw hh hclip n (yline + 1) o ht
          have hxw : xPos + x < w := hx4 h1
          have heq : (yPos + yline) * scrW + (xPos + x)
              = yRow t yPos h y * scrW + c := by
            rw [← hx3]
            exact hy5
          have hrow : yPos + yline = yRow t yPos h y :=
            row_offset_inj (by omega) (by omega) heq
          unfold yRow at hrow
          rw [if_neg h1] at hrow
          omega

/-- `c8_draw_sprite` is the wrapped `draw_sprite` call at the selected
parameters. -/
theorem c8_draw_sprite_eq (st : Chip8) (o : Nat) :
    c8_draw_sprite st o
      = (draw_sprite st (drawSize st o) (st.registers (register_x o))
          (st.registers (register_y o)) (drawW st) (drawH st) (drawCount st o)).map
          (fun su =>
            ({ su.1 with
                draw := true
                registers := updf su.1.registers 15 (if su.2 then 1 else 0) }, 2)) := by
  simp only [c8_draw_sprite, drawSize, drawCount, drawW, drawH]
  split_ifs <;> rfl

/-- `draw_sprite` succeeds and replays the sprite's event list whenever
every sprite byte read is in bounds. -/
theorem draw_sprite_eq (st : Chip8) (size x y w h dc : Nat)
    (hcap : ∀ k, k < dc → st.i + k < st.profile.memory_capacity) :
    draw_sprite st size x y w h dc = some
      ({ st with gfx := (applyEvents (st.profile.screen_width * st.profile.screen_height)
            (spriteEvents st.target st.profile.screen_width w h st.memory st.i
              (x % w) (y % h) size 0 dc) (st.gfx, false)).1 },
        (applyEvents (st.profile.screen_width * st.profile.screen_height)
            (spriteEvents st.target st.profile.screen_width w h st.memory st.i
              (x % w) (y % h) size 0 dc) (st.gfx, false)).2) := by
  unfold draw_sprite
  simp only [drawYLoop_eq st.target st.profile.memory_capacity
    (st.profile.screen_width * st.profile.screen_height) st.profile.screen_width
    w h st.memory st.i (x % w) (y % h) size dc 0 (st.gfx, false)
    (fun k hk => by have := hcap k hk; omega)]
  rfl

/-- One full successful DXYN execution, as a single equation: the new
framebuffer and the collision flag are the replay of the sprite's event
list, VF is set from the collision flag, the draw flag is set, and the
pc delta is 2. -/
theorem c8_draw_sprite_run (s : Chip8) (o : Nat)
    (hcap1 : ∀ k, k < drawCount s o → s.i + k < s.profile.memory_capacity) :
    c8_draw_sprite s o = some
      ({ s with
          gfx := (applyEvents (s.profile.screen_width * s.profile.screen_height)
            (spriteEvents s.target s.profile.screen_width (drawW s) (drawH s) s.memory s.i
              (s.registers (register_x o) % drawW s) (s.registers (register_y o) % drawH s)
              (drawSize s o) 0 (drawCount s o)) (s.gfx, false)).1
          draw := true
          registers := updf s.registers 15
            (if (applyEvents (s.profile.screen_width * s.profile.screen_height)
                (spriteEvents s.target s.profile.screen_width (drawW s) (drawH s) s.memory s.i
                  (s.registers (register_x o) % drawW s) (s.registers (register_y o) % drawH s)
                  (drawSize s o) 0 (drawCount s o)) (s.gfx, false)).2
             then 1 else 0) }, 2) := by
  rw [c8_draw_sprite_eq s o,
      draw_sprite_eq s (drawSize s o) (s.registers (register_x o))
        (s.registers (register_y o)) (drawW s) (drawH s) (drawCount s o) hcap1]
  rfl

/-- Every sprite event is inside the framebuffer. -/
theorem spriteEvents_lt_len (t : Target) (scrW scrH w h : Nat) (mem : Nat → Nat)
    (i xPos yPos size : Nat) (hw : 0 < w) (hh : 0 < h) (hwW : w ≤ scrW)
    (hhH : h ≤ scrH) (rem yline : Nat) :
    ∀ o ∈ spriteEvents t scrW w h mem i xPos yPos size yline rem, o < scrW * scrH := by
  have hclip : t ≠ Target.xoChip → ∀ x, xCol t w xPos x = xPos + x := by
    intro hne x
    unfold xCol
    rw [if_neg hne]
  intro o ho
  obtain ⟨y, c, _, _, hc, hyr, heq⟩ :=
    mem_spriteEvents t scrW w h mem i xPos yPos size hw hh hclip rem yline o ho
  have h1 : (yRow t yPos h y + 1) * scrW ≤ h * scrW := Nat.mul_le_mul_right scrW (by omega)
  have h2 : h * scrW ≤ scrH * scrW := Nat.mul_le_mul_right scrW hhH
  rw [add_mul, one_mul] at h1
  have h3 : scrH * scrW = scrW * scrH := Nat.mul_comm _ _
  omega

/-- Replaying the same duplicate-free, in-bounds event list twice over a
cleared framebuffer reports no collision the first time, restores the
cleared framebuffer the second time, and reports a collision the second
time exactly when the list is nonempty. -/
theorem applyEvents_double (len : Nat) (evs : List Nat) (hnd : evs.Nodup)
    (hlt : ∀ o ∈ evs, o < len) (g0 : Nat → Bool) (hg0 : ∀ p, g0 p = false) :
    (applyEvents len evs (g0, false)).2 = false ∧
    (∀ p, (applyEvents len evs ((applyEvents len evs (g0, false)).1, false)).1 p = false) ∧
    ((applyEvents len evs ((applyEvents len evs (g0, false)).1, false)).2 = true
      ↔ evs ≠ []) := by
  have hg1 : ∀ p, (applyEvents len evs (g0, false)).1 p
      = if p ∈ evs ∧ p < len then true else false := by
    intro p
    rw [applyEvents_gfx len evs hnd (g0, false) p]
    simp only [hg0]
    split_ifs <;> rfl
  refine ⟨?_, ?_, ?_⟩
  · rw [applyEvents_unset len evs hnd (g0, false)]
    simp only [Bool.false_or, List.any_eq_false]
    intro q _
    simp [hg0 q]
  · intro p
    rw [applyEvents_gfx len evs hnd _ p, hg1 p]
    split_ifs <;> rfl
  · rw [applyEvents_unset len evs hnd _]
    simp only [Bool.false_or]
    constructor
    · intro hany hnil
      subst hnil
      simp at hany
    · intro hne
      rcases evs with _ | ⟨e, rest⟩
      · exact absurd rfl hne
      · have he : e ∈ e :: rest := List.mem_cons_self e rest
        have : (applyEvents len (e :: rest) (g0, false)).1 e = true := by
          rw [hg1 e]
          rw [if_pos ⟨he, hlt e he⟩]
        rw [List.any_eq_true]
        exact ⟨e, he, this⟩

/-- Numeric facts about the selected drawing width. -/
theorem drawW_facts (st : Chip8) (hprof : st.profile = profiles st.target) :
    0 < drawW st ∧ drawW st ≤ st.profile.screen_width := by
  have h64 : 64 ≤ st.profile.screen_width := by
    rw [hprof]; cases st.target <;> decide
  unfold drawW
  split_ifs
  · exact ⟨by omega, Nat.div_le_self _ _⟩
  · omega

/-- Numeric facts about the selected drawing height. -/
theorem drawH_facts (st : Chip8) (hprof : st.profile = profiles st.target) :
    0 < drawH st ∧ drawH st ≤ st.profile.screen_height := by
  have h32 : 32 ≤ st.profile.screen_height := by
    rw [hprof]; cases st.target <;> decide
  unfold drawH
  split_ifs
  · exact ⟨by omega, Nat.div_le_self _ _⟩
  · omega

/-- On XO-Chip the sprite always fits the wrap moduli: its width is at
most the effective width and its row count at most the effective height. -/
theorem drawXo_facts (st : Chip8) (o : Nat) (hprof : st.profile = profiles st.target)
    (hxo : st.target = Target.xoChip) :
    drawSize st o ≤ drawW st ∧ drawCount st o ≤ drawH st := by
  have hW : st.profile.screen_width = 128 := by rw [hprof, hxo]; rfl
  have hH : st.profile.screen_height = 64 := by rw [hprof, hxo]; rfl
  have hdc : o &&& 0x000F ≤ 15 := Nat.and_le_right
  unfold drawSize drawCount drawW drawH
  split_ifs with h1 h2 h3
  · exact absurd h2.2 (by simp [h1.2.1])
  · omega
  · omega
  · omega

/-- The selected row count never exceeds 16. -/
theorem drawCount_le (st : Chip8) (o : Nat) : drawCount st o ≤ 16 := by
  have hdc : o &&& 0x000F ≤ 15 := Nat.and_le_right
  unfold drawCount
  split_ifs <;> omega

/-! Claim theorems. -/

/-- Claim C1 (code bug): at the failing input (SuperChip, opcode 0xF075,
V0 = 5, zeroed RPL bank) the cycle copies the bank into the registers —
V0 becomes 0 and the bank entry stays 0 — where the claim, the standard
FX75 semantics, and the handlers' own source comments all say the
registers are copied into the bank (bank entry 5, V0 unchanged). -/
theorem c1_fx75_reads_bank_at_failing_input :
    ((emulate_cycle c1state).map fun p =>
        (p.1.registers 0, p.1.user_registers.map (fun f => f 0), p.1.pc, p.2))
      = some (0, some 0, 0x202, none) ∧
    c1state.registers 0 = 5 ∧
    (c1state.user_registers.map fun f => f 0) = some 0 := by
  refine ⟨?_, by decide, ?_⟩ <;> rfl

/-- Claim C2 counterexample: on a fresh SuperChip state high-resolution
mode is inactive, yet the resolution-scale accessor returns 2, not 1 as
the claim requires. -/
theorem c2_counterexample :
    resolution_scale c2state = 2 ∧ c2state.target = Target.superChip ∧
    c2state.hires = false := by
  refine ⟨rfl, rfl, rfl⟩

/-- Claim C2 (amended): the resolution-scale accessor returns 1 or 2, and
it returns 2 exactly when the target is not CHIP-8 (i.e. SuperChip family
or XO-Chip) and high-resolution mode is currently inactive. -/
theorem c2_resolution_scale_spec (st : Chip8) :
    (resolution_scale st = 1 ∨ resolution_scale st = 2) ∧
    (resolution_scale st = 2 ↔ (st.target ≠ Target.chip8 ∧ st.hires = false)) := by
  unfold resolution_scale
  by_cases h : st.hires ∨ st.target = Target.chip8
  · constructor
    · left; simp [h]
    · rw [if_pos h]
      constructor
      · intro hc; omega
      · rintro ⟨h1, h2⟩
        rcases h with h | h
        · rw [h2] at h; cases h
        · exact absurd h h1
  · constructor
    · right; simp [h]
    · push_neg at h
      simp [if_neg, h.1, h.2]

/-- Claim C4 counterexample: from the reachable CHIP-8 state obtained by
loading ROM [AF FF F0 55], the first cycle leaves I = 0xFFF < 4096, and
the FX55 step (X = 0) then leaves I = 0x1000 = memory_capacity, so a
single instruction step does not preserve address_register <
memory_capacity. -/
theorem c4_counterexample :
    ((emulate_cycle c4state).map fun p => p.1.i) = some 0xFFF ∧
    (((emulate_cycle c4state).bind fun p => emulate_cycle p.1).map fun p => p.1.i)
      = some 0x1000 ∧
    c4state.profile.memory_capacity = 0x1000 := by
  refine ⟨rfl, rfl, rfl⟩

/-- Claim C4 (amended): ANNN always loads a 12-bit value into the address
register, and FX1E preserves `address_register ≤ 0xFFF` (hence strictly
below the memory capacity of every profile); but, per the counterexample,
the FX55/FX65 auto-increment on CHIP-8/XO-Chip does not preserve
`address_register < memory_capacity`. -/
theorem c4_addr_reg_spec (st : Chip8) (o : Nat)
    (hprof : st.profile = profiles st.target)
    (hi : st.i ≤ 0xFFF)
    (hv : st.registers (register_x o) < 256) :
    ((c8_mem_addi st o).1.i ≤ 0xFFF ∧
     (c8_mem_addi st o).1.i < st.profile.memory_capacity) ∧
    ((c8_mem_store st o).1.i ≤ 0xFFF ∧
     (c8_mem_store st o).1.i < st.profile.memory_capacity) := by
  have hcap : 0x1000 ≤ st.profile.memory_capacity := by
    rw [hprof]; exact profiles_capacity_ge st.target
  have hstore : (c8_mem_store st o).1.i ≤ 0xFFF := land_fff_le o
  have haddi : (c8_mem_addi st o).1.i ≤ 0xFFF := by
    have h1 : (st.i + st.registers (register_x o)) % 65536
        = st.i + st.registers (register_x o) := Nat.mod_eq_of_lt (by omega)
    unfold c8_mem_addi
    simp only [h1]
    split <;> simp <;> omega
  exact ⟨⟨haddi, by omega⟩, ⟨hstore, by omega⟩⟩

/-- Claim C4 amended-theorem witness at a concrete input: I = 0xFFE,
V3 = 4, opcode F31E on a fresh CHIP-8 state. -/
theorem c4_addr_reg_spec_witness :
    ((c8_mem_addi c4wstate 0xF31E).1.i ≤ 0xFFF ∧
     (c8_mem_addi c4wstate 0xF31E).1.i < c4wstate.profile.memory_capacity) ∧
    ((c8_mem_store c4wstate 0xF31E).1.i ≤ 0xFFF ∧
     (c8_mem_store c4wstate 0xF31E).1.i < c4wstate.profile.memory_capacity) :=
  c4_addr_reg_spec c4wstate 0xF31E rfl (by decide) (by decide)

/-- Claim C5 counterexample: FX29 with V0 = 0x1F (outside the glyph
range) sets I to 75 = 5 * 0xF, a state change beyond the program-counter
advance, contradicting the claim that no state is altered. -/
theorem c5_counterexample :
    (c8_mem_spriteaddr c5state 0xF029).1.i = 75 ∧
    c5state.i = 0x200 ∧ c5state.registers 0 = 0x1F ∧ 0xF < c5state.registers 0 := by
  refine ⟨rfl, rfl, rfl, by decide⟩

/-- Claim C5 (amended): FX29 never faults, but it does not ignore an
out-of-range value: it masks the source register to its low nibble and
always sets I to 5 * (v mod 16) — i.e. an out-of-range value behaves
exactly like the glyph v mod 16 — leaving all other state untouched and
advancing pc by 2. -/
theorem c5_fx29_spec (st : Chip8) (o : Nat) :
    c8_mem_spriteaddr st o
      = ({ st with i := 5 * (st.registers (register_x o) % 16) }, 2) := by
  unfold c8_mem_spriteaddr
  rw [land_fifteen]

/-- Claim C6 (confirmed): FX33 stores exactly the hundreds digit of the
source register at I, the tens digit at I+1 and the ones digit at I+2,
leaving all other memory untouched; the source's guard-free modulo
algorithm computes precisely these digits for every 8-bit value. -/
theorem c6_bcd_digits (st : Chip8) (o : Nat)
    (hv : st.registers (register_x o) < 256)
    (hcap : st.i + 2 < st.profile.memory_capacity) :
    ∃ st1, c8_bcd_store st o = some (st1, 2) ∧
      st1.memory st.i = st.registers (register_x o) / 100 ∧
      st1.memory (st.i + 1) = (st.registers (register_x o) / 10) % 10 ∧
      st1.memory (st.i + 2) = st.registers (register_x o) % 10 ∧
      (∀ a, a < st.i ∨ st.i + 2 < a → st1.memory a = st.memory a) := by
  unfold c8_bcd_store
  rw [if_pos hcap]
  refine ⟨_, rfl, ?_, ?_, ?_, ?_⟩
  · simp only [updf]
    split_ifs <;> omega
  · simp only [updf]
    split_ifs <;> omega
  · simp only [updf]
    split_ifs <;> omega
  · intro a ha
    simp only [updf]
    split_ifs <;> omega

/-- Claim C6 witness: V3 = 229, I = 0x300, opcode F333 on CHIP-8. -/
theorem c6_bcd_digits_witness :
    ∃ st1, c8_bcd_store c6state 0xF333 = some (st1, 2) ∧
      st1.memory c6state.i = c6state.registers (register_x 0xF333) / 100 ∧
      st1.memory (c6state.i + 1) = (c6state.registers (register_x 0xF333) / 10) % 10 ∧
      st1.memory (c6state.i + 2) = c6state.registers (register_x 0xF333) % 10 ∧
      (∀ a, a < c6state.i ∨ c6state.i + 2 < a → st1.memory a = c6state.memory a) :=
  c6_bcd_digits c6state 0xF333 (by decide) (by decide)

/-- Claim C7 counterexample: with X = 15 (opcode 8F04), VX = 5 and
VY = 0, the flag write overwrites the sum: afterwards VX (= V15) holds 0,
not (5 + 0) mod 256 = 5 as the claim requires for every register X. -/
theorem c7_counterexample :
    (c8_math_add_reg c7state 0x8F04).1.registers (register_x 0x8F04) = 0 ∧
    c7state.registers (register_x 0x8F04) = 5 ∧
    c7state.registers (register_y 0x8F04) = 0 ∧ (5 + 0) % 256 = 5 := by
  refine ⟨rfl, rfl, rfl, by decide⟩

/-- Claim C7 (amended): for every X other than 15 and all 8-bit a, b,
8XY4 with VX = a and VY = b leaves VX = (a + b) mod 256 and sets V15 to 1
iff a + b > 255 (for X = 15 the flag write wins, per the counterexample). -/
theorem c7_add_reg_spec (st : Chip8) (o : Nat) (a b : Nat)
    (hx : register_x o ≠ 15)
    (ha : st.registers (register_x o) = a) (hb : st.registers (register_y o) = b)
    (ha8 : a < 256) (hb8 : b < 256) :
    (c8_math_add_reg st o).1.registers (register_x o) = (a + b) % 256 ∧
    ((c8_math_add_reg st o).1.registers 15 = 1 ↔ 255 < a + b) ∧
    (c8_math_add_reg st o).2 = 2 := by
  unfold c8_math_add_reg
  refine ⟨?_, ?_, rfl⟩
  · simp only [updf, if_neg hx, if_pos, ha, hb]
  · simp only [updf, ha, hb]
    norm_num
    omega

/-- Claim C7 witness: V2 = 200, V3 = 100, opcode 8234 on CHIP-8. -/
theorem c7_add_reg_spec_witness :
    (c8_math_add_reg c7wstate 0x8234).1.registers (register_x 0x8234) = (200 + 100) % 256 ∧
    ((c8_math_add_reg c7wstate 0x8234).1.registers 15 = 1 ↔ 255 < 200 + 100) ∧
    (c8_math_add_reg c7wstate 0x8234).2 = 2 :=
  c7_add_reg_spec c7wstate 0x8234 200 100 (by decide) (by decide) (by decide)
    (by decide) (by decide)

/-- Claim C8 (confirmed): FX55 writes V0..VX to memory[I..I+X], changes
no other memory and no register, and afterwards I is advanced by X+1
(as a 16-bit register) on CHIP-8 and XO-Chip but unchanged on the
SuperChip family. -/
theorem c8_reg_dump_spec (st : Chip8) (o : Nat)
    (hcap : st.i + ((o &&& 0x0F00) >>> 8) < st.profile.memory_capacity) :
    ∃ st1, c8_mem_reg_dump st o = some (st1, 2) ∧
      (∀ k, k ≤ (o &&& 0x0F00) >>> 8 → st1.memory (st.i + k) = st.registers k) ∧
      (∀ a, a < st.i ∨ st.i + ((o &&& 0x0F00) >>> 8) < a → st1.memory a = st.memory a) ∧
      (∀ r, st1.registers r = st.registers r) ∧
      st1.i = (match st.target with
        | Target.chip8 | Target.xoChip => (st.i + ((o &&& 0x0F00) >>> 8) + 1) % 65536
        | Target.superChipLegacy | Target.superChip => st.i) := by
  unfold c8_mem_reg_dump
  rw [if_pos hcap]
  refine ⟨_, rfl, ?_, ?_, fun r => rfl, rfl⟩
  · intro k hk
    have h1 : st.i ≤ st.i + k ∧ st.i + k ≤ st.i + ((o &&& 0x0F00) >>> 8) := by omega
    have h2 : st.i + k - st.i = k := by omega
    simp [h1.1, h1.2, h2]
  · intro a ha
    have : ¬(st.i ≤ a ∧ a ≤ st.i + ((o &&& 0x0F00) >>> 8)) := by omega
    simp [this]

/-- Claim C8 witness: the specification scenario — SuperChip, opcode
F355 (X = 3), I = 0xC60, V0..V3 = DE AD BE EF. -/
theorem c8_reg_dump_spec_witness :
    ∃ st1, c8_mem_reg_dump c8wstate 0xF355 = some (st1, 2) ∧
      (∀ k, k ≤ (0xF355 &&& 0x0F00) >>> 8 →
        st1.memory (c8wstate.i + k) = c8wstate.registers k) ∧
      (∀ a, a < c8wstate.i ∨ c8wstate.i + ((0xF355 &&& 0x0F00) >>> 8) < a →
        st1.memory a = c8wstate.memory a) ∧
      (∀ r, st1.registers r = c8wstate.registers r) ∧
      st1.i = (match c8wstate.target with
        | Target.chip8 | Target.xoChip => (c8wstate.i + ((0xF355 &&& 0x0F00) >>> 8) + 1) % 65536
        | Target.superChipLegacy | Target.superChip => c8wstate.i) :=
  c8_reg_dump_spec c8wstate 0xF355 (by decide)

/-- Dispatch lemma: a cycle whose fetched opcode is FX0A runs the
key-wait handler and applies its pc delta. -/
theorem fx0a_cycle (st : Chip8) (X : Nat) (hX : X < 16)
    (hm0 : st.memory st.pc = 0xF0 + X) (hm1 : st.memory (st.pc + 1) = 0x0A)
    (hpc : st.pc + 1 < st.profile.memory_capacity) :
    emulate_cycle st = some
      ({ (c8_key_wait st (((0xF0 + X) <<< 8) ||| 0x0A)).1 with
          pc := ((c8_key_wait st (((0xF0 + X) <<< 8) ||| 0x0A)).1.pc
            + (c8_key_wait st (((0xF0 + X) <<< 8) ||| 0x0A)).2) % 65536 }, none) := by
  unfold emulate_cycle
  rw [if_pos hpc]
  simp only [hm0, hm1]
  interval_cases X <;>
  · norm_num
    repeat rw [if_neg (by first | decide | exact fun h => absurd h.1 (by decide))]
    unfold step_opcode
    repeat rw [if_neg (by first | decide | exact fun h => absurd h.1 (by decide))]
    rw [if_pos (by decide)]
    rfl

/-- Claim C3 counterexample: with FX0A armed (one cycle executed, no key
pressed), pressing key 5 and running another cycle leaves the program
counter unchanged at 0x200, the destination register still 0 and the wait
state at (armed, candidate 5) — the claim's assertion that a
released-to-pressed transition alone completes the wait (register written,
state idle, pc advanced) is false: the captured key must also be released
first. -/
theorem c3_counterexample :
    ((emulate_cycle c3state).bind fun p1 =>
        (emulate_cycle (set_key p1.1 5 true)).map fun p2 =>
          (p2.1.pc, p2.1.registers 0, p2.1.key_wait, p2.1.key 5))
      = some (0x200, 0, (some false, some 5), true) ∧
    c3state.pc = 0x200 ∧ c3state.key 5 = false := by
  refine ⟨rfl, rfl, rfl⟩

/-- Claim C3 (amended): FX0A with the wait idle arms it without moving
pc; while armed with no candidate, cycles are identity on the state (pc
unchanged); a key press while armed records that key as candidate (pc
still unchanged across cycles); when the candidate key is then released
the wait is marked complete, and the next cycle writes the key value to
the destination register, returns the wait to idle, and advances pc
by 2. -/
theorem c3_key_wait_spec (st : Chip8) (X k : Nat) (hX : X < 16) (hk : k < 16)
    (hm0 : st.memory st.pc = 0xF0 + X) (hm1 : st.memory (st.pc + 1) = 0x0A)
    (hpc : st.pc + 1 < st.profile.memory_capacity)
    (hcap : st.profile.memory_capacity ≤ 65536) :
    (st.key_wait = (none, none) →
      emulate_cycle st = some ({ st with key_wait := (some false, none) }, none)) ∧
    (st.key_wait = (some false, none) →
      emulate_cycle st = some (st, none) ∧
      set_key st k true
        = { st with key_wait := (some false, some k), key := updb st.key k true }) ∧
    (st.key_wait = (some false, some k) →
      emulate_cycle st = some (st, none) ∧
      set_key st k false
        = { st with key_wait := (some true, some k), key := updb st.key k false }) ∧
    (st.key_wait = (some true, some k) →
      emulate_cycle st = some
        ({ st with key_wait := (none, none), registers := updf st.registers X k,
                   pc := (st.pc + 2) % 65536 }, none)) := by
  have hrx : register_x (((0xF0 + X) <<< 8) ||| 0x0A) = X := by
    interval_cases X <;> decide
  have hpcm : st.pc % 65536 = st.pc := by omega
  refine ⟨fun hkw => ?_, fun hkw => ⟨?_, ?_⟩, fun hkw => ⟨?_, ?_⟩, fun hkw => ?_⟩
  · rw [fx0a_cycle st X hX hm0 hm1 hpc]
    unfold c8_key_wait
    rw [hkw]
    simp [hpcm]
  · rw [fx0a_cycle st X hX hm0 hm1 hpc]
    unfold c8_key_wait
    rw [hkw]
    simp [hpcm]
  · unfold set_key
    rw [hkw]
    simp [hk]
  · rw [fx0a_cycle st X hX hm0 hm1 hpc]
    unfold c8_key_wait
    rw [hkw]
    simp [hpcm]
  · unfold set_key
    rw [hkw]
    simp [hk]
  · rw [fx0a_cycle st X hX hm0 hm1 hpc]
    unfold c8_key_wait
    rw [hkw, hrx]

/-- Claim C3 witness: the amended statement instantiated at the concrete
CHIP-8 state with opcode F00A at 0x200 (X = 0) and key 5. -/
theorem c3_key_wait_spec_witness :
    (c3state.key_wait = (none, none) →
      emulate_cycle c3state
        = some ({ c3state with key_wait := (some false, none) }, none)) ∧
    (c3state.key_wait = (some false, none) →
      emulate_cycle c3state = some (c3state, none) ∧
      set_key c3state 5 true
        = { c3state with key_wait := (some false, some 5), key := updb c3state.key 5 true }) ∧
    (c3state.key_wait = (some false, some 5) →
      emulate_cycle c3state = some (c3state, none) ∧
      set_key c3state 5 false
        = { c3state with key_wait := (some true, some 5), key := updb c3state.key 5 false }) ∧
    (c3state.key_wait = (some true, some 5) →
      emulate_cycle c3state = some
        ({ c3state with key_wait := (none, none), registers := updf c3state.registers 0 5,
                        pc := (c3state.pc + 2) % 65536 }, none)) :=
  c3_key_wait_spec c3state 0 5 (by decide) (by decide) (by decide) (by decide)
    (by decide) (by decide)

/-- Claim C9 (confirmed): starting from a cleared framebuffer (and a
successful, in-bounds draw at a position taken from registers other than
V15, so that both draws use the same position), executing the same DXYN
sprite draw twice restores every framebuffer pixel to unset, with
register 15 equal to 0 after the first draw, and equal to 1 after the
second draw whenever the first draw set at least one pixel. -/
theorem c9_double_draw (st : Chip8) (o : Nat)
    (hprof : st.profile = profiles st.target)
    (hclear : ∀ p, st.gfx p = false)
    (hx : register_x o ≠ 15) (hy : register_y o ≠ 15)
    (hcap : st.i + 16 ≤ st.profile.memory_capacity) :
    ∃ st1 st2, c8_draw_sprite st o = some (st1, 2) ∧
      st1.registers 15 = 0 ∧
      c8_draw_sprite st1 o = some (st2, 2) ∧
      (∀ p, st2.gfx p = false) ∧
      ((∃ p, st1.gfx p = true) → st2.registers 15 = 1) := by
  have hwf := drawW_facts st hprof
  have hhf := drawH_facts st hprof
  have hxo : st.target = Target.xoChip → drawSize st o ≤ drawW st ∧ drawCount st o ≤ drawH st :=
    fun ht => drawXo_facts st o hprof ht
  have hcap' : ∀ k, k < drawCount st o → st.i + k < st.profile.memory_capacity := by
    intro k hk
    have := drawCount_le st o
    omega
  have hnd := spriteEvents_nodup st.target st.profile.screen_width (drawW st) (drawH st)
      st.memory st.i (st.registers (register_x o) % drawW st)
      (st.registers (register_y o) % drawH st) (drawSize st o)
      hwf.1 hhf.1 hwf.2 (fun ht => (hxo ht).1) (drawCount st o) 0 (fun ht => (hxo ht).2)
  have hlt := spriteEvents_lt_len st.target st.profile.screen_width st.profile.screen_height
      (drawW st) (drawH st) st.memory st.i (st.registers (register_x o) % drawW st)
      (st.registers (register_y o) % drawH st) (drawSize st o)
      hwf.1 hhf.1 hwf.2 hhf.2 (drawCount st o) 0
  obtain ⟨hU1, hG2, hU2⟩ := applyEvents_double
      (st.profile.screen_width * st.profile.screen_height) _ hnd hlt st.gfx hclear
  have hXr : updf st.registers 15 0 (register_x o) = st.registers (register_x o) := by
    unfold updf
    rw [if_neg hx]
  have hYr : updf st.registers 15 0 (register_y o) = st.registers (register_y o) := by
    unfold updf
    rw [if_neg hy]
  have he1 := c8_draw_sprite_run st o hcap'
  rw [hU1] at he1
  simp only [Bool.false_eq_true, if_false] at he1
  have hpack : ∃ st1, c8_draw_sprite st o = some (st1, 2) ∧
      st1.target = st.target ∧ st1.profile = st.profile ∧ st1.memory = st.memory ∧
      st1.i = st.i ∧ st1.hires = st.hires ∧
      st1.registers (register_x o) = st.registers (register_x o) ∧
      st1.registers (register_y o) = st.registers (register_y o) ∧
      st1.registers 15 = 0 ∧
      st1.gfx = (applyEvents (st.profile.screen_width * st.profile.screen_height)
        (spriteEvents st.target st.profile.screen_width (drawW st) (drawH st) st.memory st.i
          (st.registers (register_x o) % drawW st) (st.registers (register_y o) % drawH st)
          (drawSize st o) 0 (drawCount st o)) (st.gfx, false)).1 := by
    refine ⟨_, he1, rfl, rfl, rfl, rfl, rfl, hXr, hYr, ?_, rfl⟩
    show updf st.registers 15 0 15 = 0
    unfold updf
    rw [if_pos rfl]
  obtain ⟨st1, he1a, h1t, h1p, h1m, h1i, h1h, h1x, h1y, h1f, h1g⟩ := hpack
  have hdw : drawW st1 = drawW st := by unfold drawW; rw [h1t, h1h, h1p]
  have hdh : drawH st1 = drawH st := by unfold drawH; rw [h1t, h1h, h1p]
  have hds : drawSize st1 o = drawSize st o := by unfold drawSize; rw [h1t, h1h]
  have hdc : drawCount st1 o = drawCount st o := by unfold drawCount; rw [h1t, h1h]
  have hcap2 : ∀ k, k < drawCount st1 o → st1.i + k < st1.profile.memory_capacity := by
    rw [hdc, h1i, h1p]
    exact hcap'
  have he2 := c8_draw_sprite_run st1 o hcap2
  rw [h1t, h1p, h1m, h1i, hdw, hdh, hds, hdc, h1x, h1y, h1g] at he2
  refine ⟨st1, _, he1a, h1f, he2, ?_, ?_⟩
  · intro p
    exact hG2 p
  · rintro ⟨p, hp⟩
    rw [h1g] at hp
    rw [applyEvents_gfx _ _ hnd _ p] at hp
    have hmem : p ∈ spriteEvents st.target st.profile.screen_width (drawW st) (drawH st)
        st.memory st.i (st.registers (register_x o) % drawW st)
        (st.registers (register_y o) % drawH st) (drawSize st o) 0 (drawCount st o) := by
      by_cases hc : p ∈ spriteEvents st.target st.profile.screen_width (drawW st) (drawH st)
          st.memory st.i (st.registers (register_x o) % drawW st)
          (st.registers (register_y o) % drawH st) (drawSize st o) 0 (drawCount st o)
          ∧ p < st.profile.screen_width * st.profile.screen_height
      · exact hc.1
      · rw [if_neg hc] at hp
        simp [hclear] at hp
    have hne : spriteEvents st.target st.profile.screen_width (drawW st) (drawH st)
        st.memory st.i (st.registers (register_x o) % drawW st)
        (st.registers (register_y o) % drawH st) (drawSize st o) 0 (drawCount st o) ≠ [] := by
      intro h0
      rw [h0] at hmem
      cases hmem
    have hU2t := hU2.mpr hne
    show updf st1.registers 15 _ 15 = 1
    unfold updf
    rw [if_pos rfl, hU2t]
    rfl

/-- Claim C9 witness: the sprite A5 A5 drawn twice at (3, 4) on a cleared
CHIP-8 framebuffer. -/
theorem c9_double_draw_witness :
    ∃ st1 st2, c8_draw_sprite c9wstate 0xD012 = some (st1, 2) ∧
      st1.registers 15 = 0 ∧
      c8_draw_sprite st1 0xD012 = some (st2, 2) ∧
      (∀ p, st2.gfx p = false) ∧
      ((∃ p, st1.gfx p = true) → st2.registers 15 = 1) :=
  c9_double_draw c9wstate 0xD012 rfl (fun p => rfl) (by decide) (by decide) (by decide)

/-- Claim C10 (confirmed): fetching opcode 0x00FD on the SuperChip family
or XO-Chip makes the cycle return the Quit action with the entire state
unchanged; on CHIP-8 the same opcode is the 0NNN no-op, which only
advances the program counter by 2. -/
theorem c10_quit_opcode (st : Chip8)
    (hprof : st.profile = profiles st.target)
    (hm0 : st.memory st.pc = 0x00) (hm1 : st.memory (st.pc + 1) = 0xFD)
    (hpc : st.pc + 1 < st.profile.memory_capacity) :
    (st.target ≠ Target.chip8 → emulate_cycle st = some (st, some Action.quit)) ∧
    (st.target = Target.chip8 → emulate_cycle st = some ({ st with pc := st.pc + 2 }, none)) := by
  unfold emulate_cycle
  rw [if_pos hpc]
  simp only [hm0, hm1]
  norm_num
  constructor
  · intro ht
    cases h : st.target
    · exact absurd h ht
    · simp [isSC, isXO]
    · simp [isSC, isXO]
    · simp [isSC, isXO]
  · intro ht
    have hcap : st.profile.memory_capacity = 4096 := by rw [hprof, ht]; rfl
    rw [ht]
    simp only [isSC, isXO]
    norm_num
    unfold step_opcode
    rw [ht]
    repeat rw [if_neg (by decide)]
    rw [if_pos (by decide)]
    have h2 : (st.pc + 2) % 65536 = st.pc + 2 := Nat.mod_eq_of_lt (by omega)
    simp [h2, ht]

/-- Claim C10 witness: opcode 00FD at pc = 0x200 on a fresh SuperChip
state quits with the state untouched, and on a fresh CHIP-8 state only
advances pc to 0x202. -/
theorem c10_quit_opcode_witness :
    emulate_cycle c10state = some (c10state, some Action.quit) ∧
    emulate_cycle c10state8 = some ({ c10state8 with pc := c10state8.pc + 2 }, none) :=
  ⟨(c10_quit_opcode c10state rfl (by decide) (by decide) (by decide)).1 (by decide),
   (c10_quit_opcode c10state8 rfl (by decide) (by decide) (by decide)).2 rfl⟩

end Chipper
